import Mathlib

/-!
Shallow embedding of the live-session audio pipeline of
`components/LiveApiTab.tsx` (the Session Lifecycle, Playback Scheduler,
transcript accumulation, and the PCM sample conversions), for checking the
repository specification against the code.

Modelling conventions:
* Nullable refs (`sessionPromiseRef`, `mediaStreamRef`, `scriptProcessorRef`,
  the two `AudioContext` refs) become `Bool` flags recording whether the ref
  currently holds a value.
* Clock times, buffer durations, `Date.now()` and `Math.random()` values are
  rationals (`ℚ`).
* External calls performed by a handler (`session.close()`, `track.stop()`,
  `processor.disconnect()`, `context.close()`, `source.start(t)`,
  `source.stop()`) are returned as an explicit effect list alongside the new
  state.
* A `LiveServerMessage` is reduced to the five fields the handler reads: the
  inline audio payload (kept as the duration of the decoded buffer), the
  `interrupted` flag, the two partial-transcription texts, and `turnComplete`.
-/

namespace LiveApiTab

/-- The `ConversationStatus` union type. -/
inductive ConversationStatus where
  | idle
  | connecting
  | connected
  | error
  | stopped
deriving DecidableEq

/-- Speaker tag of a transcript turn. -/
inductive Speaker where
  | user
  | model
deriving DecidableEq

/-- The `Transcription` interface: `{ id, speaker, text }`.  In the code the
id is produced as `Date.now() + Math.random()`, hence a rational here. -/
structure Transcription where
  id : ℚ
  speaker : Speaker
  text : String
deriving DecidableEq

/-- An `AudioBufferSourceNode` that has been scheduled: identified by creation
order, with its scheduled start time and its buffer duration (in seconds). -/
structure PlaybackUnit where
  id : Nat
  startTime : ℚ
  duration : ℚ
deriving DecidableEq

/-- The component state: React state plus the mutable refs of `LiveApiTab`. -/
structure LiveState where
  status : ConversationStatus
  transcriptions : List Transcription
  error : Option String
  sessionPromise : Bool
  mediaStream : Bool
  scriptProcessor : Bool
  inputAudioContext : Bool
  outputAudioContext : Bool
  nextStartTime : ℚ
  outputSources : List PlaybackUnit
  nextSourceId : Nat
  currentInputTranscription : String
  currentOutputTranscription : String
deriving DecidableEq

/-- Initial component state: all refs null, `status` idle, cursor at 0. -/
def initState : LiveState where
  status := ConversationStatus.idle
  transcriptions := []
  error := none
  sessionPromise := false
  mediaStream := false
  scriptProcessor := false
  inputAudioContext := false
  outputAudioContext := false
  nextStartTime := 0
  outputSources := []
  nextSourceId := 0
  currentInputTranscription := ""
  currentOutputTranscription := ""

/-- External calls made during teardown. -/
inductive Effect where
  | sessionClose
  | trackStop
  | processorDisconnect
  | inputContextClose
  | outputContextClose
deriving DecidableEq

/-- External calls made by the server-message handler on playback sources. -/
inductive PEffect where
  | sourceStart (id : Nat) (time : ℚ)
  | sourceStop (id : Nat)
deriving DecidableEq

/-- `handleStop`: closes the session if one is pending, stops the media
tracks if a stream is held, disconnects the script processor if present,
closes both audio contexts if present (the context refs are not nulled by the
code), and unconditionally sets the status to `stopped`. -/
def handleStop (s : LiveState) : LiveState × List Effect :=
  let e1 : List Effect := if s.sessionPromise then [Effect.sessionClose] else []
  let e2 : List Effect := if s.mediaStream then [Effect.trackStop] else []
  let e3 : List Effect := if s.scriptProcessor then [Effect.processorDisconnect] else []
  let e4 : List Effect := if s.inputAudioContext then [Effect.inputContextClose] else []
  let e5 : List Effect := if s.outputAudioContext then [Effect.outputContextClose] else []
  ({ s with
      sessionPromise := false
      mediaStream := false
      scriptProcessor := false
      status := ConversationStatus.stopped },
   e1 ++ e2 ++ e3 ++ e4 ++ e5)

/-- The `onerror` transport callback: records the error message, sets the
status to `error`, then runs `handleStop` (which overwrites the status). -/
def onerror (msg : String) (s : LiveState) : LiveState × List Effect :=
  handleStop
    { s with
        error := some ("Connection error: " ++ msg)
        status := ConversationStatus.error }

/-- The `onopen` callback: session is open; the capture processor is created
and connected. -/
def onopen (s : LiveState) : LiveState :=
  { s with status := ConversationStatus.connected, scriptProcessor := true }

/-- The `onclose` callback. -/
def onclose (s : LiveState) : LiveState :=
  { s with status := ConversationStatus.stopped }

/-- `handleStart`, as a function of its two asynchronous outcomes: whether
`process.env.API_KEY` is set and whether microphone access is granted (with
the failure message of the latter).  Without the key it only records the
error message and returns; otherwise it clears the transcript, moves to
`connecting`, and either acquires the stream, the two audio contexts and the
session promise, or lands in `error` on a microphone failure. -/
def handleStart (apiKeyPresent micGranted : Bool) (micErr : String)
    (s : LiveState) : LiveState :=
  if apiKeyPresent = false then
    { s with error := some "API key is not configured." }
  else
    let s1 := { s with
        transcriptions := []
        status := ConversationStatus.connecting
        error := none }
    if micGranted then
      { s1 with
          mediaStream := true
          inputAudioContext := true
          outputAudioContext := true
          sessionPromise := true }
    else
      { s1 with
          error := some ("Failed to get microphone: " ++ micErr)
          status := ConversationStatus.error }

/-- The fields of a `LiveServerMessage` read by `handleServerMessage`.  The
inline audio payload is kept abstract as the duration of the buffer it
decodes to. -/
structure ServerMessage where
  audioData : Option ℚ
  interrupted : Bool
  inputTranscription : Option String
  outputTranscription : Option String
  turnComplete : Bool
deriving DecidableEq

/-- Ambient values read during one `handleServerMessage` call: the output
clock (`outputAudioContext.currentTime`) and the `Date.now()` /
`Math.random()` draws for the two potential turn ids. -/
structure MsgEnv where
  currentTime : ℚ
  now1 : ℚ
  rand1 : ℚ
  now2 : ℚ
  rand2 : ℚ
deriving DecidableEq

/-- The "Play audio" block of `handleServerMessage`: if an audio payload is
present and the output context ref is non-null, raise the cursor to the
clock, start a new source at the raised cursor, advance the cursor by the
buffer duration, and add the source to `outputSources`. -/
def playAudioStep (env : MsgEnv) (m : ServerMessage) (s : LiveState) :
    LiveState × List PEffect :=
  match m.audioData with
  | some d =>
    if s.outputAudioContext then
      let start := max s.nextStartTime env.currentTime
      ({ s with
          nextStartTime := start + d
          outputSources := s.outputSources ++ [⟨s.nextSourceId, start, d⟩]
          nextSourceId := s.nextSourceId + 1 },
       [PEffect.sourceStart s.nextSourceId start])
    else (s, [])
  | none => (s, [])

/-- The "Interrupt and clear audio queue" block: stop every source in
`outputSources`, clear the set, reset the cursor to 0. -/
def interruptStep (m : ServerMessage) (s : LiveState) :
    LiveState × List PEffect :=
  if m.interrupted then
    ({ s with outputSources := [], nextStartTime := 0 },
     s.outputSources.map (fun u => PEffect.sourceStop u.id))
  else (s, [])

/-- The partial-transcription block: append each present fragment to the
corresponding accumulator. -/
def transcriptionStep (m : ServerMessage) (s : LiveState) : LiveState :=
  let s1 :=
    match m.inputTranscription with
    | some t =>
      { s with currentInputTranscription := s.currentInputTranscription ++ t }
    | none => s
  match m.outputTranscription with
  | some t =>
    { s1 with currentOutputTranscription := s1.currentOutputTranscription ++ t }
  | none => s1

/-- JavaScript `String.prototype.trim`: drop leading and trailing whitespace
characters.  (Stated over the character list so that it is structurally
recursive.) -/
def trimString (s : String) : String :=
  ⟨((s.data.dropWhile Char.isWhitespace).reverse.dropWhile
      Char.isWhitespace).reverse⟩

/-- The `turnComplete` block: trim both accumulators, push a `user` turn when
the trimmed input is non-empty, then a `model` turn when the trimmed output
is non-empty, each with id `Date.now() + Math.random()`, and clear both
accumulators. -/
def turnCompleteStep (env : MsgEnv) (m : ServerMessage) (s : LiveState) :
    LiveState :=
  if m.turnComplete then
    let fullInput := trimString s.currentInputTranscription
    let fullOutput := trimString s.currentOutputTranscription
    let ts1 :=
      if fullInput ≠ "" then
        s.transcriptions ++ [⟨env.now1 + env.rand1, Speaker.user, fullInput⟩]
      else s.transcriptions
    let ts2 :=
      if fullOutput ≠ "" then
        ts1 ++ [⟨env.now2 + env.rand2, Speaker.model, fullOutput⟩]
      else ts1
    { s with
        transcriptions := ts2
        currentInputTranscription := ""
        currentOutputTranscription := "" }
  else s

/-- `handleServerMessage`: the four blocks in source order. -/
def handleServerMessage (env : MsgEnv) (m : ServerMessage) (s : LiveState) :
    LiveState × List PEffect :=
  let p1 := playAudioStep env m s
  let p2 := interruptStep m p1.1
  let s3 := transcriptionStep m p2.1
  (turnCompleteStep env m s3, p1.2 ++ p2.2)

/-- A message carrying only an audio payload of duration `d`. -/
def audioMsg (d : ℚ) : ServerMessage :=
  ⟨some d, false, none, none, false⟩

/-- A message carrying only the `interrupted` flag. -/
def interruptMsg : ServerMessage :=
  ⟨none, true, none, none, false⟩

/-- A message carrying only an input-transcription fragment. -/
def inputFragMsg (t : String) : ServerMessage :=
  ⟨none, false, some t, none, false⟩

/-- A message carrying only the `turnComplete` flag. -/
def turnCompleteMsg : ServerMessage :=
  ⟨none, false, none, none, true⟩

/-- Concatenation of a list of transcription fragments, in arrival order. -/
def concatFrags : List String → String
  | [] => ""
  | f :: rest => f ++ concatFrags rest

/-- Process a list of messages in arrival order (same ambient values for
each; the effects are discarded). -/
def processMessages (env : MsgEnv) (ms : List ServerMessage) (s : LiveState) :
    LiveState :=
  ms.foldl (fun acc m => (handleServerMessage env m acc).1) s

/-- Truncation toward zero of a rational, as JavaScript number-to-integer
conversion does. -/
def truncQ (x : ℚ) : ℤ :=
  if 0 ≤ x then ⌊x⌋ else ⌈x⌉

/-- JavaScript `ToInt16` applied to a (rational) number: truncate toward
zero, wrap modulo 2^16 into [-32768, 32767].  This is the per-element
conversion of `new Int16Array(floatArray)`. -/
def toInt16 (x : ℚ) : ℤ :=
  let n := truncQ x % 65536
  if 32768 ≤ n then n - 65536 else n

/-- The capture conversion of `onaudioprocess`:
`new Int16Array(inputData.map(x => x * 32768))`. -/
def floatToPcm16 (samples : List ℚ) : List ℤ :=
  samples.map (fun x => toInt16 (x * 32768))

/-- Modelled from the spec: the inverse conversion lives in
`utils/audioUtils.decodeAudioData`, which is not under `src/`; §4.1 of the
spec states it normalizes each little-endian signed 16-bit sample to
[-1.0, 1.0] by dividing by 32768. -/
def pcm16ToFloat (pcm : List ℤ) : List ℚ :=
  pcm.map (fun i => (i : ℚ) / 32768)

/-! ## Session lifecycle theorems -/

/-- C1: the spec says that after an asynchronous transport error event the
session state is `error`, not `stopped`.  In the code, `onerror` sets the
status to `error` and then calls `handleStop`, whose final
`setStatus('stopped')` overwrites it: the state after the event is
`stopped`.  The error message itself is recorded as the spec describes, but
the `error` status is dead.  This theorem evaluates the handler on an
arbitrary error event. -/
theorem c1_transport_error_final_status (msg : String) (s : LiveState) :
    (onerror msg s).1.status = ConversationStatus.stopped ∧
    (onerror msg s).1.status ≠ ConversationStatus.error ∧
    (onerror msg s).1.error = some ("Connection error: " ++ msg) := by
  refine ⟨rfl, ?_, rfl⟩
  intro h
  exact ConversationStatus.noConfusion h

/-- C3 counterexample: `handleStop` invoked on the initial (`idle`, no
resources) state produces no side effects, but it does change the state: the
status becomes `stopped`, not `idle`, because `setStatus('stopped')` runs
unconditionally. -/
theorem c3_stop_from_idle_counterexample :
    (handleStop initState).1.status = ConversationStatus.stopped ∧
    (handleStop initState).1.status ≠ ConversationStatus.idle ∧
    (handleStop initState).2 = [] := by
  decide

/-- C3 (amended): `stop()` from any state sets the status to `stopped`
(including from `idle`, where this is its only observable change since no
resources are held), nulls the session, stream and processor refs, and
performs each teardown call exactly when the corresponding resource is
present: it closes the remote session iff one is pending, stops the
microphone tracks iff a stream is held, and disconnects the capture
processor iff one is connected. -/
theorem c3_amended_stop_teardown (s : LiveState) :
    (handleStop s).1.status = ConversationStatus.stopped ∧
    (handleStop s).1.sessionPromise = false ∧
    (handleStop s).1.mediaStream = false ∧
    (handleStop s).1.scriptProcessor = false ∧
    (Effect.sessionClose ∈ (handleStop s).2 ↔ s.sessionPromise = true) ∧
    (Effect.trackStop ∈ (handleStop s).2 ↔ s.mediaStream = true) ∧
    (Effect.processorDisconnect ∈ (handleStop s).2 ↔
      s.scriptProcessor = true) := by
  refine ⟨rfl, rfl, rfl, rfl, ?_, ?_, ?_⟩ <;>
    · simp only [handleStop, List.mem_append]
      cases h1 : s.sessionPromise <;> cases h2 : s.mediaStream <;>
        cases h3 : s.scriptProcessor <;> cases h4 : s.inputAudioContext <;>
        cases h5 : s.outputAudioContext <;> simp

/-- C9: when `process.env.API_KEY` is absent, `handleStart` only records the
user-visible message "API key is not configured." and returns: the status is
unchanged (so it never reaches `connecting`), and no session, stream or
audio-context ref is touched.  Conversely, a run of `handleStart` can end in
status `connecting` from `idle` only when the key is present. -/
theorem c9_credential_gate (micGranted : Bool) (micErr : String)
    (s : LiveState) :
    handleStart false micGranted micErr s =
      { s with error := some "API key is not configured." } ∧
    (handleStart false micGranted micErr s).status = s.status ∧
    (handleStart false micGranted micErr s).sessionPromise =
      s.sessionPromise ∧
    (handleStart false micGranted micErr s).mediaStream = s.mediaStream ∧
    (∀ key : Bool, s.status = ConversationStatus.idle →
      (handleStart key micGranted micErr s).status =
        ConversationStatus.connecting →
      key = true) := by
  refine ⟨rfl, rfl, rfl, rfl, ?_⟩
  intro key hidle hconn
  cases key with
  | true => rfl
  | false =>
    rw [show (handleStart false micGranted micErr s).status = s.status
          from rfl, hidle] at hconn
    exact ConversationStatus.noConfusion hconn

/-! ## Playback scheduler lemmas -/

/-- Frame lemma: the transcription blocks of the handler do not touch the
scheduler state. -/
theorem transcriptionStep_sched (m : ServerMessage) (s : LiveState) :
    (transcriptionStep m s).nextStartTime = s.nextStartTime ∧
    (transcriptionStep m s).outputSources = s.outputSources ∧
    (transcriptionStep m s).nextSourceId = s.nextSourceId ∧
    (transcriptionStep m s).outputAudioContext = s.outputAudioContext := by
  unfold transcriptionStep
  cases m.inputTranscription <;> cases m.outputTranscription <;>
    exact ⟨rfl, rfl, rfl, rfl⟩

/-- Frame lemma: the `turnComplete` block does not touch the scheduler
state. -/
theorem turnCompleteStep_sched (env : MsgEnv) (m : ServerMessage)
    (s : LiveState) :
    (turnCompleteStep env m s).nextStartTime = s.nextStartTime ∧
    (turnCompleteStep env m s).outputSources = s.outputSources ∧
    (turnCompleteStep env m s).nextSourceId = s.nextSourceId ∧
    (turnCompleteStep env m s).outputAudioContext = s.outputAudioContext := by
  unfold turnCompleteStep
  cases m.turnComplete <;> exact ⟨rfl, rfl, rfl, rfl⟩

/-- The scheduler state after the whole handler is the scheduler state after
the first two (audio and interrupt) blocks. -/
theorem handleServerMessage_sched (env : MsgEnv) (m : ServerMessage)
    (s : LiveState) :
    (handleServerMessage env m s).1.nextStartTime =
      (interruptStep m (playAudioStep env m s).1).1.nextStartTime ∧
    (handleServerMessage env m s).1.outputSources =
      (interruptStep m (playAudioStep env m s).1).1.outputSources ∧
    (handleServerMessage env m s).1.nextSourceId =
      (interruptStep m (playAudioStep env m s).1).1.nextSourceId ∧
    (handleServerMessage env m s).1.outputAudioContext =
      (interruptStep m (playAudioStep env m s).1).1.outputAudioContext ∧
    (handleServerMessage env m s).2 =
      (playAudioStep env m s).2 ++
        (interruptStep m (playAudioStep env m s).1).2 := by
  obtain ⟨h1, h2, h3, h4⟩ :=
    turnCompleteStep_sched env m
      (transcriptionStep m (interruptStep m (playAudioStep env m s).1).1)
  obtain ⟨g1, g2, g3, g4⟩ :=
    transcriptionStep_sched m (interruptStep m (playAudioStep env m s).1).1
  exact ⟨by rw [show (handleServerMessage env m s).1 =
            turnCompleteStep env m
              (transcriptionStep m
                (interruptStep m (playAudioStep env m s).1).1) from rfl,
          h1, g1],
        by rw [show (handleServerMessage env m s).1 =
            turnCompleteStep env m
              (transcriptionStep m
                (interruptStep m (playAudioStep env m s).1).1) from rfl,
          h2, g2],
        by rw [show (handleServerMessage env m s).1 =
            turnCompleteStep env m
              (transcriptionStep m
                (interruptStep m (playAudioStep env m s).1).1) from rfl,
          h3, g3],
        by rw [show (handleServerMessage env m s).1 =
            turnCompleteStep env m
              (transcriptionStep m
                (interruptStep m (playAudioStep env m s).1).1) from rfl,
          h4, g4],
        rfl⟩

/-- Evaluation of the handler on a pure audio message with the output
context present: the source starts at `max nextStartTime currentTime` and
the cursor advances by the buffer duration. -/
theorem enqueue_audio (env : MsgEnv) (d : ℚ) (s : LiveState)
    (hctx : s.outputAudioContext = true) :
    handleServerMessage env (audioMsg d) s =
      ({ s with
          nextStartTime := max s.nextStartTime env.currentTime + d
          outputSources := s.outputSources ++
            [⟨s.nextSourceId, max s.nextStartTime env.currentTime, d⟩]
          nextSourceId := s.nextSourceId + 1 },
       [PEffect.sourceStart s.nextSourceId
          (max s.nextStartTime env.currentTime)]) := by
  simp [handleServerMessage, playAudioStep, interruptStep, transcriptionStep,
    turnCompleteStep, audioMsg, hctx]

/-- Evaluation of the interrupt block when the flag is set. -/
theorem interrupt_flush (m : ServerMessage) (s : LiveState)
    (hint : m.interrupted = true) :
    interruptStep m s =
      ({ s with outputSources := [], nextStartTime := 0 },
       s.outputSources.map (fun u => PEffect.sourceStop u.id)) := by
  simp [interruptStep, hint]

/-- Evaluation of the interrupt block when the flag is clear. -/
theorem interrupt_skip (m : ServerMessage) (s : LiveState)
    (hint : m.interrupted = false) :
    interruptStep m s = (s, []) := by
  simp [interruptStep, hint]

/-- The audio block never drops a source that was already active. -/
theorem playAudioStep_sources_sub (env : MsgEnv) (m : ServerMessage)
    (s : LiveState) :
    ∀ u ∈ s.outputSources, u ∈ (playAudioStep env m s).1.outputSources := by
  intro u hu
  unfold playAudioStep
  cases m.audioData with
  | none => exact hu
  | some d =>
    by_cases hc : s.outputAudioContext = true
    · simp only [hc, if_true, List.mem_append]
      exact Or.inl hu
    · simp only [hc, if_false]
      exact hu

/-- The audio block does not touch the output-context ref. -/
theorem playAudioStep_ctx (env : MsgEnv) (m : ServerMessage) (s : LiveState) :
    (playAudioStep env m s).1.outputAudioContext = s.outputAudioContext := by
  unfold playAudioStep
  cases m.audioData with
  | none => rfl
  | some d => by_cases hc : s.outputAudioContext = true <;> simp [hc]

/-! ## Playback scheduler theorems -/

/-- C4: a message with the interruption flag empties the active set, emits a
stop call for every source that was active, and resets `nextStartTime` to 0;
consequently an audio payload enqueued afterwards (at a non-negative clock
time) is started at the current clock time, not at any previously computed
offset. -/
theorem c4_interrupt_stops_all (env : MsgEnv) (m : ServerMessage)
    (s : LiveState) (hint : m.interrupted = true) :
    (handleServerMessage env m s).1.outputSources = [] ∧
    (handleServerMessage env m s).1.nextStartTime = 0 ∧
    (∀ u ∈ s.outputSources,
      PEffect.sourceStop u.id ∈ (handleServerMessage env m s).2) ∧
    (∀ (env2 : MsgEnv) (d : ℚ), 0 ≤ env2.currentTime →
      s.outputAudioContext = true →
      (handleServerMessage env2 (audioMsg d)
          (handleServerMessage env m s).1).2 =
        [PEffect.sourceStart (handleServerMessage env m s).1.nextSourceId
          env2.currentTime]) := by
  obtain ⟨hns, hos, hid, hctx, heff⟩ := handleServerMessage_sched env m s
  have hflush := interrupt_flush m (playAudioStep env m s).1 hint
  refine ⟨by rw [hos, hflush], by rw [hns, hflush], ?_, ?_⟩
  · intro u hu
    rw [heff, hflush]
    refine List.mem_append_right _ ?_
    exact List.mem_map_of_mem _ (playAudioStep_sources_sub env m s u hu)
  · intro env2 d ht hctx0
    have hctx1 : (handleServerMessage env m s).1.outputAudioContext = true := by
      rw [hctx, hflush]
      show (playAudioStep env m s).1.outputAudioContext = true
      rw [playAudioStep_ctx, hctx0]
    rw [enqueue_audio env2 d _ hctx1, hns, hflush]
    show [PEffect.sourceStart _ (max (0 : ℚ) env2.currentTime)] = _
    rw [max_eq_right ht]

/-- C4 witness: interrupting with one active unit and then enqueuing. -/
theorem c4_interrupt_stops_all_witness :
    interruptMsg.interrupted = true ∧
    ((handleServerMessage ⟨2, 0, 0, 0, 0⟩ interruptMsg
        { initState with
            outputAudioContext := true
            nextStartTime := 7
            outputSources := [⟨0, 1, 6⟩]
            nextSourceId := 1 }).1.outputSources = [] ∧
     (handleServerMessage ⟨2, 0, 0, 0, 0⟩ interruptMsg
        { initState with
            outputAudioContext := true
            nextStartTime := 7
            outputSources := [⟨0, 1, 6⟩]
            nextSourceId := 1 }).1.nextStartTime = 0 ∧
     (∀ u ∈ ({ initState with
            outputAudioContext := true
            nextStartTime := 7
            outputSources := [⟨0, 1, 6⟩]
            nextSourceId := 1 } : LiveState).outputSources,
        PEffect.sourceStop u.id ∈
          (handleServerMessage ⟨2, 0, 0, 0, 0⟩ interruptMsg
            { initState with
                outputAudioContext := true
                nextStartTime := 7
                outputSources := [⟨0, 1, 6⟩]
                nextSourceId := 1 }).2) ∧
     (∀ (env2 : MsgEnv) (d : ℚ), 0 ≤ env2.currentTime →
        ({ initState with
            outputAudioContext := true
            nextStartTime := 7
            outputSources := [⟨0, 1, 6⟩]
            nextSourceId := 1 } : LiveState).outputAudioContext = true →
        (handleServerMessage env2 (audioMsg d)
            (handleServerMessage ⟨2, 0, 0, 0, 0⟩ interruptMsg
              { initState with
                  outputAudioContext := true
                  nextStartTime := 7
                  outputSources := [⟨0, 1, 6⟩]
                  nextSourceId := 1 }).1).2 =
          [PEffect.sourceStart
            (handleServerMessage ⟨2, 0, 0, 0, 0⟩ interruptMsg
              { initState with
                  outputAudioContext := true
                  nextStartTime := 7
                  outputSources := [⟨0, 1, 6⟩]
                  nextSourceId := 1 }).1.nextSourceId
            env2.currentTime])) :=
  ⟨rfl, c4_interrupt_stops_all ⟨2, 0, 0, 0, 0⟩ interruptMsg _ rfl⟩

/-- C5: each enqueue starts its unit at `max nextStartTime currentTime` and
advances the cursor by the unit's duration; consequently three units of
durations `d1, d2, d3` enqueued instantaneously at clock time `t0` (with the
cursor not past `t0`) start back-to-back at `t0`, `t0 + d1`,
`t0 + d1 + d2`. -/
theorem c5_gapless_scheduling (env : MsgEnv) (d1 d2 d3 : ℚ) (s : LiveState)
    (hctx : s.outputAudioContext = true)
    (ht : s.nextStartTime ≤ env.currentTime)
    (h1 : 0 ≤ d1) (h2 : 0 ≤ d2) :
    (∀ (e : MsgEnv) (d : ℚ) (s0 : LiveState),
      s0.outputAudioContext = true →
      (handleServerMessage e (audioMsg d) s0).2 =
        [PEffect.sourceStart s0.nextSourceId
          (max s0.nextStartTime e.currentTime)] ∧
      (handleServerMessage e (audioMsg d) s0).1.nextStartTime =
        max s0.nextStartTime e.currentTime + d) ∧
    ∃ s1 s2 s3 : LiveState,
      handleServerMessage env (audioMsg d1) s =
        (s1, [PEffect.sourceStart s.nextSourceId env.currentTime]) ∧
      handleServerMessage env (audioMsg d2) s1 =
        (s2, [PEffect.sourceStart (s.nextSourceId + 1)
          (env.currentTime + d1)]) ∧
      handleServerMessage env (audioMsg d3) s2 =
        (s3, [PEffect.sourceStart (s.nextSourceId + 2)
          (env.currentTime + d1 + d2)]) ∧
      s3.outputSources = s.outputSources ++
        [⟨s.nextSourceId, env.currentTime, d1⟩,
         ⟨s.nextSourceId + 1, env.currentTime + d1, d2⟩,
         ⟨s.nextSourceId + 2, env.currentTime + d1 + d2, d3⟩] ∧
      s3.nextStartTime = env.currentTime + d1 + d2 + d3 := by
  constructor
  · intro e d s0 h
    rw [enqueue_audio e d s0 h]
    exact ⟨rfl, rfl⟩
  · have hmax1 : max s.nextStartTime env.currentTime = env.currentTime :=
      max_eq_right ht
    have hmax2 : max (env.currentTime + d1) env.currentTime =
        env.currentTime + d1 :=
      max_eq_left (by linarith)
    have hmax3 : max (env.currentTime + d1 + d2) env.currentTime =
        env.currentTime + d1 + d2 :=
      max_eq_left (by linarith)
    refine ⟨{ s with
        nextStartTime := env.currentTime + d1
        outputSources := s.outputSources ++
          [⟨s.nextSourceId, env.currentTime, d1⟩]
        nextSourceId := s.nextSourceId + 1 }, ?_⟩
    refine ⟨{ s with
        nextStartTime := env.currentTime + d1 + d2
        outputSources := s.outputSources ++
          [⟨s.nextSourceId, env.currentTime, d1⟩] ++
          [⟨s.nextSourceId + 1, env.currentTime + d1, d2⟩]
        nextSourceId := s.nextSourceId + 2 }, ?_⟩
    refine ⟨{ s with
        nextStartTime := env.currentTime + d1 + d2 + d3
        outputSources := s.outputSources ++
          [⟨s.nextSourceId, env.currentTime, d1⟩] ++
          [⟨s.nextSourceId + 1, env.currentTime + d1, d2⟩] ++
          [⟨s.nextSourceId + 2, env.currentTime + d1 + d2, d3⟩]
        nextSourceId := s.nextSourceId + 3 }, ?_, ?_, ?_, ?_, ?_⟩
    · rw [enqueue_audio env d1 s hctx, hmax1]
    · have hc1 : ({ s with
          nextStartTime := env.currentTime + d1
          outputSources := s.outputSources ++
            [⟨s.nextSourceId, env.currentTime, d1⟩]
          nextSourceId := s.nextSourceId + 1 } :
            LiveState).outputAudioContext = true := hctx
      rw [enqueue_audio env d2 _ hc1]
      show (_, [PEffect.sourceStart (s.nextSourceId + 1)
        (max (env.currentTime + d1) env.currentTime)]) = _
      rw [hmax2]
    · have hc2 : ({ s with
          nextStartTime := env.currentTime + d1 + d2
          outputSources := s.outputSources ++
            [⟨s.nextSourceId, env.currentTime, d1⟩] ++
            [⟨s.nextSourceId + 1, env.currentTime + d1, d2⟩]
          nextSourceId := s.nextSourceId + 2 } :
            LiveState).outputAudioContext = true := hctx
      rw [enqueue_audio env d3 _ hc2]
      show (_, [PEffect.sourceStart (s.nextSourceId + 2)
        (max (env.currentTime + d1 + d2) env.currentTime)]) = _
      rw [hmax3]
    · simp [List.append_assoc]
    · rfl

/-- C5 witness: three unit-duration buffers enqueued at clock time 0 on a
fresh scheduler. -/
theorem c5_gapless_scheduling_witness :
    ({ initState with outputAudioContext := true } :
        LiveState).outputAudioContext = true ∧
    ({ initState with outputAudioContext := true } :
        LiveState).nextStartTime ≤ (⟨0, 0, 0, 0, 0⟩ : MsgEnv).currentTime ∧
    (0 : ℚ) ≤ 1 ∧
    ((∀ (e : MsgEnv) (d : ℚ) (s0 : LiveState),
      s0.outputAudioContext = true →
      (handleServerMessage e (audioMsg d) s0).2 =
        [PEffect.sourceStart s0.nextSourceId
          (max s0.nextStartTime e.currentTime)] ∧
      (handleServerMessage e (audioMsg d) s0).1.nextStartTime =
        max s0.nextStartTime e.currentTime + d) ∧
    ∃ s1 s2 s3 : LiveState,
      handleServerMessage ⟨0, 0, 0, 0, 0⟩ (audioMsg 1)
          { initState with outputAudioContext := true } =
        (s1, [PEffect.sourceStart
          ({ initState with outputAudioContext := true } :
            LiveState).nextSourceId (⟨0, 0, 0, 0, 0⟩ : MsgEnv).currentTime]) ∧
      handleServerMessage ⟨0, 0, 0, 0, 0⟩ (audioMsg 1) s1 =
        (s2, [PEffect.sourceStart
          (({ initState with outputAudioContext := true } :
            LiveState).nextSourceId + 1)
          ((⟨0, 0, 0, 0, 0⟩ : MsgEnv).currentTime + 1)]) ∧
      handleServerMessage ⟨0, 0, 0, 0, 0⟩ (audioMsg 1) s2 =
        (s3, [PEffect.sourceStart
          (({ initState with outputAudioContext := true } :
            LiveState).nextSourceId + 2)
          ((⟨0, 0, 0, 0, 0⟩ : MsgEnv).currentTime + 1 + 1)]) ∧
      s3.outputSources =
        ({ initState with outputAudioContext := true } :
          LiveState).outputSources ++
        [⟨({ initState with outputAudioContext := true } :
            LiveState).nextSourceId,
          (⟨0, 0, 0, 0, 0⟩ : MsgEnv).currentTime, 1⟩,
         ⟨({ initState with outputAudioContext := true } :
            LiveState).nextSourceId + 1,
          (⟨0, 0, 0, 0, 0⟩ : MsgEnv).currentTime + 1, 1⟩,
         ⟨({ initState with outputAudioContext := true } :
            LiveState).nextSourceId + 2,
          (⟨0, 0, 0, 0, 0⟩ : MsgEnv).currentTime + 1 + 1, 1⟩] ∧
      s3.nextStartTime =
        (⟨0, 0, 0, 0, 0⟩ : MsgEnv).currentTime + 1 + 1 + 1) :=
  ⟨rfl, by decide, by decide,
    c5_gapless_scheduling ⟨0, 0, 0, 0, 0⟩ 1 1 1
      { initState with outputAudioContext := true } rfl (by decide)
      (by decide) (by decide)⟩

/-- C8: the scheduling cursor never decreases across a handled message
unless the message carries the interruption flag, in which case it is reset
to zero and all pending units are discarded.  (Buffer durations are
non-negative.) -/
theorem c8_cursor_monotone (env : MsgEnv) (m : ServerMessage) (s : LiveState)
    (hd : ∀ d, m.audioData = some d → 0 ≤ d) :
    (m.interrupted = false →
      s.nextStartTime ≤ (handleServerMessage env m s).1.nextStartTime) ∧
    (m.interrupted = true →
      (handleServerMessage env m s).1.nextStartTime = 0 ∧
      (handleServerMessage env m s).1.outputSources = []) := by
  obtain ⟨hns, hos, hid, hctx, heff⟩ := handleServerMessage_sched env m s
  constructor
  · intro hm
    rw [hns, interrupt_skip m _ hm]
    cases hA : m.audioData with
    | none =>
      rw [show (playAudioStep env m s).1 = s from by
        simp [playAudioStep, hA]]
    | some d =>
      by_cases hc : s.outputAudioContext = true
      · unfold playAudioStep
        rw [hA]
        simp only [hc, if_true]
        have hle := le_max_left s.nextStartTime env.currentTime
        have hdn := hd d hA
        calc s.nextStartTime ≤ max s.nextStartTime env.currentTime := hle
          _ ≤ max s.nextStartTime env.currentTime + d := by linarith
      · unfold playAudioStep
        rw [hA]
        simp [hc]
  · intro hm
    rw [hns, hos, interrupt_flush m _ hm]
    exact ⟨rfl, rfl⟩

/-- C8 witness: an audio message of duration 1 (no interrupt), and an
interrupt message, on a state with a pending unit. -/
theorem c8_cursor_monotone_witness :
    (∀ d : ℚ, (audioMsg 1).audioData = some d → 0 ≤ d) ∧
    (((audioMsg 1).interrupted = false →
      ({ initState with outputAudioContext := true, nextStartTime := 3 } :
        LiveState).nextStartTime ≤
        (handleServerMessage ⟨0, 0, 0, 0, 0⟩ (audioMsg 1)
          { initState with
              outputAudioContext := true
              nextStartTime := 3 }).1.nextStartTime) ∧
    ((audioMsg 1).interrupted = true →
      (handleServerMessage ⟨0, 0, 0, 0, 0⟩ (audioMsg 1)
        { initState with
            outputAudioContext := true
            nextStartTime := 3 }).1.nextStartTime = 0 ∧
      (handleServerMessage ⟨0, 0, 0, 0, 0⟩ (audioMsg 1)
        { initState with
            outputAudioContext := true
            nextStartTime := 3 }).1.outputSources = [])) :=
  ⟨fun d h => by
      injection h with h2
      exact h2 ▸ (by decide : (0 : ℚ) ≤ 1),
   c8_cursor_monotone ⟨0, 0, 0, 0, 0⟩ (audioMsg 1)
      { initState with outputAudioContext := true, nextStartTime := 3 }
      (fun d h => by
        injection h with h2
        exact h2 ▸ (by decide : (0 : ℚ) ≤ 1))⟩

/-! ## Transcript lemmas -/

/-- The audio block does not touch the transcript state. -/
theorem playAudioStep_transcript (env : MsgEnv) (m : ServerMessage)
    (s : LiveState) :
    (playAudioStep env m s).1.transcriptions = s.transcriptions ∧
    (playAudioStep env m s).1.currentInputTranscription =
      s.currentInputTranscription ∧
    (playAudioStep env m s).1.currentOutputTranscription =
      s.currentOutputTranscription := by
  unfold playAudioStep
  cases m.audioData with
  | none => exact ⟨rfl, rfl, rfl⟩
  | some d => by_cases hc : s.outputAudioContext = true <;> simp [hc]

/-- The interrupt block does not touch the transcript state. -/
theorem interruptStep_transcript (m : ServerMessage) (s : LiveState) :
    (interruptStep m s).1.transcriptions = s.transcriptions ∧
    (interruptStep m s).1.currentInputTranscription =
      s.currentInputTranscription ∧
    (interruptStep m s).1.currentOutputTranscription =
      s.currentOutputTranscription := by
  unfold interruptStep
  by_cases hm : m.interrupted = true <;> simp [hm]

/-- The partial-transcription block appends the fragments that are present
and leaves the emitted transcript alone. -/
theorem transcriptionStep_transcript (m : ServerMessage) (s : LiveState) :
    (transcriptionStep m s).transcriptions = s.transcriptions ∧
    (transcriptionStep m s).currentInputTranscription =
      s.currentInputTranscription ++ m.inputTranscription.getD "" ∧
    (transcriptionStep m s).currentOutputTranscription =
      s.currentOutputTranscription ++ m.outputTranscription.getD "" := by
  unfold transcriptionStep
  cases m.inputTranscription <;> cases m.outputTranscription <;>
    simp [Option.getD, String.append_empty]

/-- Evaluation of the `turnComplete` block when the flag is set. -/
theorem turnComplete_eval (env : MsgEnv) (m : ServerMessage) (s : LiveState)
    (htc : m.turnComplete = true) :
    turnCompleteStep env m s =
      { s with
          transcriptions := s.transcriptions ++
            (if trimString s.currentInputTranscription ≠ "" then
              [⟨env.now1 + env.rand1, Speaker.user,
                trimString s.currentInputTranscription⟩]
            else []) ++
            (if trimString s.currentOutputTranscription ≠ "" then
              [⟨env.now2 + env.rand2, Speaker.model,
                trimString s.currentOutputTranscription⟩]
            else [])
          currentInputTranscription := ""
          currentOutputTranscription := "" } := by
  unfold turnCompleteStep
  rw [htc]
  by_cases h1 : trimString s.currentInputTranscription ≠ "" <;>
    by_cases h2 : trimString s.currentOutputTranscription ≠ "" <;>
    simp [h1, h2]

/-- Full characterization of the transcript part of the handler on a message
with the turn-complete flag: both accumulators (extended by any fragments in
the same message) are trimmed, each non-empty trimmed text is emitted as one
turn — user first, then model — and both accumulators are cleared. -/
theorem handleServerMessage_turnComplete (env : MsgEnv) (m : ServerMessage)
    (s : LiveState) (htc : m.turnComplete = true) :
    (handleServerMessage env m s).1.transcriptions =
      s.transcriptions ++
        (if trimString (s.currentInputTranscription ++
            m.inputTranscription.getD "") ≠ "" then
          [⟨env.now1 + env.rand1, Speaker.user,
            trimString (s.currentInputTranscription ++
              m.inputTranscription.getD "")⟩]
        else []) ++
        (if trimString (s.currentOutputTranscription ++
            m.outputTranscription.getD "") ≠ "" then
          [⟨env.now2 + env.rand2, Speaker.model,
            trimString (s.currentOutputTranscription ++
              m.outputTranscription.getD "")⟩]
        else []) ∧
    (handleServerMessage env m s).1.currentInputTranscription = "" ∧
    (handleServerMessage env m s).1.currentOutputTranscription = "" := by
  obtain ⟨pa1, pa2, pa3⟩ := playAudioStep_transcript env m s
  obtain ⟨ia1, ia2, ia3⟩ :=
    interruptStep_transcript m (playAudioStep env m s).1
  obtain ⟨ta1, ta2, ta3⟩ :=
    transcriptionStep_transcript m (interruptStep m (playAudioStep env m s).1).1
  have h0 : (handleServerMessage env m s).1 =
      turnCompleteStep env m
        (transcriptionStep m (interruptStep m (playAudioStep env m s).1).1) :=
    rfl
  rw [h0, turnComplete_eval env m _ htc]
  refine ⟨?_, rfl, rfl⟩
  show (transcriptionStep m
      (interruptStep m (playAudioStep env m s).1).1).transcriptions ++ _ ++ _ = _
  rw [ta1, ia1, pa1, ta2, ia2, pa2, ta3, ia3, pa3]

/-- Evaluation of the handler on a message that carries only the
turn-complete flag. -/
theorem turnCompleteMsg_eval (env : MsgEnv) (s : LiveState) :
    (handleServerMessage env turnCompleteMsg s).1 =
      { s with
          transcriptions := s.transcriptions ++
            (if trimString s.currentInputTranscription ≠ "" then
              [⟨env.now1 + env.rand1, Speaker.user,
                trimString s.currentInputTranscription⟩]
            else []) ++
            (if trimString s.currentOutputTranscription ≠ "" then
              [⟨env.now2 + env.rand2, Speaker.model,
                trimString s.currentOutputTranscription⟩]
            else [])
          currentInputTranscription := ""
          currentOutputTranscription := "" } := by
  show turnCompleteStep env turnCompleteMsg s = _
  exact turnComplete_eval env turnCompleteMsg s rfl

/-- Processing a list of bare input-transcription fragments appends their
concatenation to the input accumulator and changes nothing else. -/
theorem processMessages_inputFrags (env : MsgEnv) (frags : List String)
    (s : LiveState) :
    processMessages env (frags.map inputFragMsg) s =
      { s with currentInputTranscription :=
          s.currentInputTranscription ++ concatFrags frags } := by
  induction frags generalizing s with
  | nil =>
    show s = _
    rw [show concatFrags [] = "" from rfl, String.append_empty]
  | cons f rest ih =>
    show processMessages env (rest.map inputFragMsg)
        (handleServerMessage env (inputFragMsg f) s).1 = _
    rw [show (handleServerMessage env (inputFragMsg f) s).1 =
        { s with currentInputTranscription :=
            s.currentInputTranscription ++ f } from rfl]
    rw [ih]
    show ({ s with currentInputTranscription :=
        (s.currentInputTranscription ++ f) ++ concatFrags rest } : LiveState) = _
    rw [String.append_assoc]
    rfl

/-! ## Transcript theorems -/

/-- C10: on a turn-complete message each accumulator (extended by fragments
arriving in the same message) is trimmed of surrounding whitespace before
being emitted; an accumulator whose trimmed content is empty produces no
turn; both accumulators are cleared afterwards. -/
theorem c10_trim_and_clear (env : MsgEnv) (m : ServerMessage) (s : LiveState)
    (htc : m.turnComplete = true) :
    (handleServerMessage env m s).1.transcriptions =
      s.transcriptions ++
        (if trimString (s.currentInputTranscription ++
            m.inputTranscription.getD "") ≠ "" then
          [⟨env.now1 + env.rand1, Speaker.user,
            trimString (s.currentInputTranscription ++
              m.inputTranscription.getD "")⟩]
        else []) ++
        (if trimString (s.currentOutputTranscription ++
            m.outputTranscription.getD "") ≠ "" then
          [⟨env.now2 + env.rand2, Speaker.model,
            trimString (s.currentOutputTranscription ++
              m.outputTranscription.getD "")⟩]
        else []) ∧
    (handleServerMessage env m s).1.currentInputTranscription = "" ∧
    (handleServerMessage env m s).1.currentOutputTranscription = "" :=
  handleServerMessage_turnComplete env m s htc

/-- C10 witness: a whitespace-only input accumulator and a non-empty model
accumulator, flushed by a turn-complete message. -/
theorem c10_trim_and_clear_witness :
    turnCompleteMsg.turnComplete = true ∧
    ((handleServerMessage ⟨0, 1, 0, 2, 0⟩ turnCompleteMsg
        { initState with
            currentInputTranscription := "  "
            currentOutputTranscription := " hi " }).1.transcriptions =
      ({ initState with
            currentInputTranscription := "  "
            currentOutputTranscription := " hi " } :
        LiveState).transcriptions ++
        (if trimString (({ initState with
              currentInputTranscription := "  "
              currentOutputTranscription := " hi " } :
            LiveState).currentInputTranscription ++
            turnCompleteMsg.inputTranscription.getD "") ≠ "" then
          [⟨(⟨0, 1, 0, 2, 0⟩ : MsgEnv).now1 + (⟨0, 1, 0, 2, 0⟩ : MsgEnv).rand1,
            Speaker.user,
            trimString (({ initState with
                currentInputTranscription := "  "
                currentOutputTranscription := " hi " } :
              LiveState).currentInputTranscription ++
              turnCompleteMsg.inputTranscription.getD "")⟩]
        else []) ++
        (if trimString (({ initState with
              currentInputTranscription := "  "
              currentOutputTranscription := " hi " } :
            LiveState).currentOutputTranscription ++
            turnCompleteMsg.outputTranscription.getD "") ≠ "" then
          [⟨(⟨0, 1, 0, 2, 0⟩ : MsgEnv).now2 + (⟨0, 1, 0, 2, 0⟩ : MsgEnv).rand2,
            Speaker.model,
            trimString (({ initState with
                currentInputTranscription := "  "
                currentOutputTranscription := " hi " } :
              LiveState).currentOutputTranscription ++
              turnCompleteMsg.outputTranscription.getD "")⟩]
        else []) ∧
     (handleServerMessage ⟨0, 1, 0, 2, 0⟩ turnCompleteMsg
        { initState with
            currentInputTranscription := "  "
            currentOutputTranscription := " hi " }).1.currentInputTranscription
        = "" ∧
     (handleServerMessage ⟨0, 1, 0, 2, 0⟩ turnCompleteMsg
        { initState with
            currentInputTranscription := "  "
            currentOutputTranscription := " hi " }).1.currentOutputTranscription
        = "") :=
  ⟨rfl, c10_trim_and_clear ⟨0, 1, 0, 2, 0⟩ turnCompleteMsg
    { initState with
        currentInputTranscription := "  "
        currentOutputTranscription := " hi " } rfl⟩

/-- Ambient values for the C2 counterexample: the clock reads 5 and both
`Math.random()` draws return 0, which `Date.now() + Math.random()` cannot
rule out. -/
def c2Env : MsgEnv := ⟨0, 5, 0, 5, 0⟩

/-- State for the C2 counterexample: both accumulators non-empty. -/
def c2State : LiveState :=
  { initState with
      currentInputTranscription := "a"
      currentOutputTranscription := "b" }

/-- C2 counterexample: with `Date.now()` returning 5 and `Math.random()`
returning 0 for both draws, the two turns flushed by one turn-complete
message carry the same id — the emitted ids are neither unique nor strictly
increasing. -/
theorem c2_ids_counterexample :
    (handleServerMessage c2Env turnCompleteMsg c2State).1.transcriptions =
      [⟨c2Env.now1 + c2Env.rand1, Speaker.user, "a"⟩,
       ⟨c2Env.now1 + c2Env.rand1, Speaker.model, "b"⟩] ∧
    ¬ ((handleServerMessage c2Env turnCompleteMsg c2State).1.transcriptions.map
        Transcription.id).Nodup := by
  have h : (handleServerMessage c2Env turnCompleteMsg c2State).1.transcriptions =
      [⟨c2Env.now1 + c2Env.rand1, Speaker.user, "a"⟩,
       ⟨c2Env.now1 + c2Env.rand1, Speaker.model, "b"⟩] := rfl
  refine ⟨h, ?_⟩
  rw [h]
  simp

/-- C2 (amended): each turn flushed on a turn-complete message carries the
id `Date.now() + Math.random()` sampled for it, and within one flush the
user turn (if any) is appended before the model turn (if any); uniqueness
and time-ordering of the ids hold only if the sampled sums happen to be
distinct and increasing — the code does not enforce them. -/
theorem c2_amended_flush_ids (env : MsgEnv) (m : ServerMessage)
    (s : LiveState) (htc : m.turnComplete = true) :
    ∃ userPart modelPart : List Transcription,
      (handleServerMessage env m s).1.transcriptions =
        s.transcriptions ++ userPart ++ modelPart ∧
      userPart.length ≤ 1 ∧ modelPart.length ≤ 1 ∧
      (∀ t ∈ userPart,
        t.id = env.now1 + env.rand1 ∧ t.speaker = Speaker.user) ∧
      (∀ t ∈ modelPart,
        t.id = env.now2 + env.rand2 ∧ t.speaker = Speaker.model) := by
  obtain ⟨h1, _, _⟩ := handleServerMessage_turnComplete env m s htc
  refine ⟨_, _, h1, ?_, ?_, ?_, ?_⟩
  · by_cases hc : trimString (s.currentInputTranscription ++
        m.inputTranscription.getD "") ≠ "" <;> simp [hc]
  · by_cases hc : trimString (s.currentOutputTranscription ++
        m.outputTranscription.getD "") ≠ "" <;> simp [hc]
  · intro t ht
    by_cases hc : trimString (s.currentInputTranscription ++
        m.inputTranscription.getD "") ≠ ""
    · rw [if_pos hc, List.mem_singleton] at ht
      subst ht
      exact ⟨rfl, rfl⟩
    · rw [if_neg hc] at ht
      exact absurd ht (List.not_mem_nil t)
  · intro t ht
    by_cases hc : trimString (s.currentOutputTranscription ++
        m.outputTranscription.getD "") ≠ ""
    · rw [if_pos hc, List.mem_singleton] at ht
      subst ht
      exact ⟨rfl, rfl⟩
    · rw [if_neg hc] at ht
      exact absurd ht (List.not_mem_nil t)

/-- C2 (amended) witness: a flush with both accumulators non-empty. -/
theorem c2_amended_flush_ids_witness :
    turnCompleteMsg.turnComplete = true ∧
    (∃ userPart modelPart : List Transcription,
      (handleServerMessage ⟨0, 3, 0, 4, 0⟩ turnCompleteMsg
          { initState with
              currentInputTranscription := "hi"
              currentOutputTranscription := "yo" }).1.transcriptions =
        ({ initState with
              currentInputTranscription := "hi"
              currentOutputTranscription := "yo" } :
          LiveState).transcriptions ++ userPart ++ modelPart ∧
      userPart.length ≤ 1 ∧ modelPart.length ≤ 1 ∧
      (∀ t ∈ userPart,
        t.id = (⟨0, 3, 0, 4, 0⟩ : MsgEnv).now1 +
            (⟨0, 3, 0, 4, 0⟩ : MsgEnv).rand1 ∧
          t.speaker = Speaker.user) ∧
      (∀ t ∈ modelPart,
        t.id = (⟨0, 3, 0, 4, 0⟩ : MsgEnv).now2 +
            (⟨0, 3, 0, 4, 0⟩ : MsgEnv).rand2 ∧
          t.speaker = Speaker.model)) :=
  ⟨rfl, c2_amended_flush_ids ⟨0, 3, 0, 4, 0⟩ turnCompleteMsg
    { initState with
        currentInputTranscription := "hi"
        currentOutputTranscription := "yo" } rfl⟩

/-- C6: accumulating any sequence of input-transcription fragments and then
receiving a turn-complete signal yields exactly one new `user` turn whose
text is the concatenation of the fragments (assuming that concatenation is
non-empty and has no surrounding whitespace, so that trimming is the
identity on it), and leaves both accumulators empty; moreover from any state
in which both trimmed accumulators are non-empty, the flush appends the two
turns in the order user then model. -/
theorem c6_turn_assembly (env : MsgEnv) (frags : List String) (s : LiveState)
    (hin : s.currentInputTranscription = "")
    (hout : s.currentOutputTranscription = "")
    (htrim : trimString (concatFrags frags) = concatFrags frags)
    (hne : concatFrags frags ≠ "") :
    (handleServerMessage env turnCompleteMsg
        (processMessages env (frags.map inputFragMsg) s)).1.transcriptions =
      s.transcriptions ++
        [⟨env.now1 + env.rand1, Speaker.user, concatFrags frags⟩] ∧
    (handleServerMessage env turnCompleteMsg
        (processMessages env
          (frags.map inputFragMsg) s)).1.currentInputTranscription = "" ∧
    (handleServerMessage env turnCompleteMsg
        (processMessages env
          (frags.map inputFragMsg) s)).1.currentOutputTranscription = "" ∧
    (∀ s2 : LiveState, trimString s2.currentInputTranscription ≠ "" →
      trimString s2.currentOutputTranscription ≠ "" →
      (handleServerMessage env turnCompleteMsg s2).1.transcriptions =
        s2.transcriptions ++
          [⟨env.now1 + env.rand1, Speaker.user,
            trimString s2.currentInputTranscription⟩,
           ⟨env.now2 + env.rand2, Speaker.model,
            trimString s2.currentOutputTranscription⟩]) := by
  have hS : processMessages env (frags.map inputFragMsg) s =
      { s with currentInputTranscription := concatFrags frags } := by
    rw [processMessages_inputFrags, hin, String.empty_append]
  rw [hS, turnCompleteMsg_eval]
  refine ⟨?_, rfl, rfl, ?_⟩
  · show s.transcriptions ++
        (if trimString (concatFrags frags) ≠ "" then
          [⟨env.now1 + env.rand1, Speaker.user,
            trimString (concatFrags frags)⟩]
        else []) ++
        (if trimString s.currentOutputTranscription ≠ "" then
          [⟨env.now2 + env.rand2, Speaker.model,
            trimString s.currentOutputTranscription⟩]
        else []) = _
    rw [htrim, if_pos hne, hout]
    rw [if_neg (by simp [trimString])]
    rw [List.append_nil]
  · intro s2 h1 h2
    rw [turnCompleteMsg_eval]
    show s2.transcriptions ++
        (if trimString s2.currentInputTranscription ≠ "" then
          [⟨env.now1 + env.rand1, Speaker.user,
            trimString s2.currentInputTranscription⟩]
        else []) ++
        (if trimString s2.currentOutputTranscription ≠ "" then
          [⟨env.now2 + env.rand2, Speaker.model,
            trimString s2.currentOutputTranscription⟩]
        else []) = _
    rw [if_pos h1, if_pos h2, List.append_assoc]
    rfl

/-- C6 witness: fragments "Hel" and "lo" followed by a turn-complete signal
produce one user turn "Hello". -/
theorem c6_turn_assembly_witness :
    initState.currentInputTranscription = "" ∧
    initState.currentOutputTranscription = "" ∧
    trimString (concatFrags ["Hel", "lo"]) = concatFrags ["Hel", "lo"] ∧
    concatFrags ["Hel", "lo"] ≠ "" ∧
    ((handleServerMessage ⟨0, 1, 0, 2, 0⟩ turnCompleteMsg
        (processMessages ⟨0, 1, 0, 2, 0⟩
          (["Hel", "lo"].map inputFragMsg) initState)).1.transcriptions =
      initState.transcriptions ++
        [⟨(⟨0, 1, 0, 2, 0⟩ : MsgEnv).now1 + (⟨0, 1, 0, 2, 0⟩ : MsgEnv).rand1,
          Speaker.user, concatFrags ["Hel", "lo"]⟩] ∧
     (handleServerMessage ⟨0, 1, 0, 2, 0⟩ turnCompleteMsg
        (processMessages ⟨0, 1, 0, 2, 0⟩
          (["Hel", "lo"].map inputFragMsg)
          initState)).1.currentInputTranscription = "" ∧
     (handleServerMessage ⟨0, 1, 0, 2, 0⟩ turnCompleteMsg
        (processMessages ⟨0, 1, 0, 2, 0⟩
          (["Hel", "lo"].map inputFragMsg)
          initState)).1.currentOutputTranscription = "" ∧
     (∀ s2 : LiveState, trimString s2.currentInputTranscription ≠ "" →
      trimString s2.currentOutputTranscription ≠ "" →
      (handleServerMessage ⟨0, 1, 0, 2, 0⟩ turnCompleteMsg s2).1.transcriptions =
        s2.transcriptions ++
          [⟨(⟨0, 1, 0, 2, 0⟩ : MsgEnv).now1 + (⟨0, 1, 0, 2, 0⟩ : MsgEnv).rand1,
            Speaker.user, trimString s2.currentInputTranscription⟩,
           ⟨(⟨0, 1, 0, 2, 0⟩ : MsgEnv).now2 + (⟨0, 1, 0, 2, 0⟩ : MsgEnv).rand2,
            Speaker.model, trimString s2.currentOutputTranscription⟩])) :=
  ⟨rfl, rfl, by decide, by decide,
    c6_turn_assembly ⟨0, 1, 0, 2, 0⟩ ["Hel", "lo"] initState rfl rfl
      (by decide) (by decide)⟩

/-! ## PCM conversion lemmas -/

/-- Bounds on truncation toward zero for inputs in the 16-bit range. -/
theorem truncQ_bounds (x : ℚ) (h1 : -32768 ≤ x) (h2 : x < 32768) :
    -32768 ≤ truncQ x ∧ truncQ x ≤ 32767 := by
  unfold truncQ
  by_cases h : 0 ≤ x
  · rw [if_pos h]
    constructor
    · have hf : (0 : ℤ) ≤ ⌊x⌋ := Int.floor_nonneg.mpr h
      omega
    · have hf : ⌊x⌋ < 32768 := by
        rw [Int.floor_lt]
        exact_mod_cast h2
      omega
  · rw [if_neg h]
    constructor
    · have hcast : ((-32768 : ℤ) : ℚ) ≤ x := by exact_mod_cast h1
      have hc := Int.ceil_le_ceil hcast
      rw [Int.ceil_intCast] at hc
      exact hc
    · have hx0 : x ≤ 0 := le_of_lt (lt_of_not_ge h)
      have hc : ⌈x⌉ ≤ 0 := Int.ceil_le.mpr (by exact_mod_cast hx0)
      omega

/-- Truncation toward zero lands within distance 1 of the input. -/
theorem truncQ_close (x : ℚ) :
    x - 1 < (truncQ x : ℚ) ∧ (truncQ x : ℚ) < x + 1 := by
  unfold truncQ
  by_cases h : 0 ≤ x
  · rw [if_pos h]
    constructor
    · have hf := Int.lt_floor_add_one x
      push_cast at hf ⊢
      linarith
    · have hf := Int.floor_le x
      linarith
  · rw [if_neg h]
    constructor
    · have hc := Int.le_ceil x
      linarith
    · exact Int.ceil_lt_add_one x

/-- Within the signed 16-bit range the `ToInt16` wrap is the identity on the
truncated value. -/
theorem toInt16_of_bounds (x : ℚ) (h1 : -32768 ≤ x) (h2 : x < 32768) :
    toInt16 x = truncQ x := by
  obtain ⟨hb1, hb2⟩ := truncQ_bounds x h1 h2
  show (if 32768 ≤ truncQ x % 65536 then truncQ x % 65536 - 65536
    else truncQ x % 65536) = truncQ x
  split <;> omega

/-- One sample strictly inside [-1, 1) survives the 16-bit round trip to
within 1/32768. -/
theorem pcm_roundtrip_pointwise (x : ℚ) (h1 : -1 ≤ x) (h2 : x < 1) :
    |x - (toInt16 (x * 32768) : ℚ) / 32768| < 1 / 32768 := by
  have hb1 : (-32768 : ℚ) ≤ x * 32768 := by linarith
  have hb2 : x * 32768 < 32768 := by linarith
  rw [toInt16_of_bounds _ hb1 hb2]
  obtain ⟨hc1, hc2⟩ := truncQ_close (x * 32768)
  have hx : x - (truncQ (x * 32768) : ℚ) / 32768 =
      (x * 32768 - (truncQ (x * 32768) : ℚ)) / 32768 := by ring
  rw [hx, abs_div, abs_of_pos (show (0 : ℚ) < 32768 by norm_num)]
  rw [div_lt_div_iff₀ (by norm_num) (by norm_num)]
  have habs : |x * 32768 - (truncQ (x * 32768) : ℚ)| < 1 := by
    rw [abs_sub_lt_iff]
    exact ⟨by linarith, by linarith⟩
  nlinarith [habs]

/-! ## PCM conversion theorems -/

/-- C7 counterexample: the claim promises the 1/32768 round-trip tolerance
for every sample in [-1.0, 1.0], but at the in-range sample 1.0 the
multiplication produces 32768, which the `Int16Array` conversion wraps to
-32768: the round trip returns -1.0, an error of 2. -/
theorem c7_tolerance_counterexample :
    ((-1 : ℚ) ≤ 1 ∧ (1 : ℚ) ≤ 1) ∧
    pcm16ToFloat (floatToPcm16 [(1 : ℚ)]) = [(-1 : ℚ)] ∧
    ∀ y ∈ pcm16ToFloat (floatToPcm16 [(1 : ℚ)]),
      ¬ (|1 - y| ≤ 1 / 32768) := by
  have hfl : ⌊(32768 : ℚ)⌋ = 32768 := by
    rw [show (32768 : ℚ) = ((32768 : ℤ) : ℚ) by norm_num]
    exact Int.floor_intCast 32768
  have ht16 : toInt16 (32768 : ℚ) = -32768 := by
    unfold toInt16 truncQ
    rw [if_pos (show (0 : ℚ) ≤ 32768 by norm_num), hfl]
    decide
  have he : pcm16ToFloat (floatToPcm16 [(1 : ℚ)]) = [(-1 : ℚ)] := by
    show [((toInt16 ((1 : ℚ) * 32768) : ℤ) : ℚ) / 32768] = [(-1 : ℚ)]
    rw [show (1 : ℚ) * 32768 = (32768 : ℚ) by norm_num, ht16]
    norm_num
  refine ⟨⟨by norm_num, le_refl 1⟩, he, ?_⟩
  intro y hy
  rw [he, List.mem_singleton] at hy
  subst hy
  rw [show (1 : ℚ) - (-1 : ℚ) = 2 by norm_num,
    abs_of_pos (show (0 : ℚ) < 2 by norm_num)]
  norm_num

/-- C7 (amended): for every sample sequence with values in [-1.0, 1.0), the
float → 16-bit → float round trip reproduces each sample to within 1/32768;
the right endpoint 1.0 must be excluded because the conversion wraps it. -/
theorem c7_amended_roundtrip (xs : List ℚ) (h : ∀ x ∈ xs, -1 ≤ x ∧ x < 1) :
    List.Forall₂ (fun a b => |a - b| < 1 / 32768) xs
      (pcm16ToFloat (floatToPcm16 xs)) := by
  induction xs with
  | nil => exact List.Forall₂.nil
  | cons a l ih =>
    simp only [pcm16ToFloat, floatToPcm16, List.map_cons] at ih ⊢
    refine List.Forall₂.cons ?_ (ih ?_)
    · obtain ⟨ha1, ha2⟩ := h a (List.mem_cons_self a l)
      exact pcm_roundtrip_pointwise a ha1 ha2
    · intro x hx
      exact h x (List.mem_cons_of_mem a hx)

/-- C7 (amended) witness: the samples 0, -1 and 1/2. -/
theorem c7_amended_roundtrip_witness :
    (∀ x ∈ [(0 : ℚ), -1, 1/2], -1 ≤ x ∧ x < 1) ∧
    List.Forall₂ (fun a b => |a - b| < 1 / 32768) [(0 : ℚ), -1, 1/2]
      (pcm16ToFloat (floatToPcm16 [(0 : ℚ), -1, 1/2])) := by
  have hmem : ∀ x ∈ [(0 : ℚ), -1, 1/2], -1 ≤ x ∧ x < 1 := by
    intro x hx
    simp only [List.mem_cons, List.not_mem_nil, or_false] at hx
    rcases hx with rfl | rfl | rfl <;> constructor <;> norm_num
  exact ⟨hmem, c7_amended_roundtrip [(0 : ℚ), -1, 1/2] hmem⟩

/-- C9 witness: the credential gate evaluated on the initial state. -/
theorem c9_credential_gate_witness :
    handleStart false true "denied" initState =
      { initState with error := some "API key is not configured." } ∧
    (handleStart false true "denied" initState).status = initState.status ∧
    (handleStart false true "denied" initState).sessionPromise =
      initState.sessionPromise ∧
    (handleStart false true "denied" initState).mediaStream =
      initState.mediaStream ∧
    (∀ key : Bool, initState.status = ConversationStatus.idle →
      (handleStart key true "denied" initState).status =
        ConversationStatus.connecting →
      key = true) :=
  c9_credential_gate true "denied" initState

end LiveApiTab
